import Mathlib

/-!
Verification development for the research-agents pipeline.

The definitions below are a shallow embedding of the JavaScript source:

* `src/apis/index.js` — search-result de-duplication (`deduplicateResults`);
* `src/db/database.js` and `src/db/schema.sql` — the SQLite-backed store
  (tables `discoveries`, `hypotheses`, `validations`, `projects`, `reviews`,
  `activity_log`), modelled as lists of rows;
* `src/agents/sage.js`, `src/agents/oracle.js`, `src/agents/architect.js`,
  the adversary agent and the triage agent — the per-entity stage operations;
* the pipeline orchestrator (`runTriageStage`, `runHypothesisStage`,
  `runValidationStage`, `runProjectDesignStage`, `runReviewStage`,
  `runFullPipeline`).

External effects are made explicit: the outcome of the generative-model call
(`BaseAgent.chat`, which can throw) and the result of `parseJsonResponse`
(which returns `null` on malformed output) are environment parameters of each
agent operation.  A JavaScript exception is modelled by the `thrown`
constructor of `StageResult`, which carries the store state at the moment of
the throw, because the SQLite writes already performed persist across a throw.
Free-text fields that no claim depends on (prompts, report markdown, evidence
lists, scores other than the total) are left out of the row types; where a
row field is dropped the doc comment of the embedding says so.
-/

namespace ResearchAgents

/-! ## Search results and de-duplication (src/apis/index.js) -/

/-- A search result as returned by the source connectors.  Only the fields
read by `deduplicateResults` (lines 58-80 of `src/apis/index.js`) are kept:
`title`, the optional `abstract` and the optional `citation_count`. -/
structure SearchResult where
  title : String
  abstract : Option String
  citation_count : Option Nat
deriving DecidableEq, Repr

/-- Title normalisation from `deduplicateResults`:
`item.title.toLowerCase().replace(/[^a-z0-9]/g, '').substring(0, 100)` —
lower-case every character, keep only `a`-`z` and `0`-`9`, truncate to 100
characters. -/
def normalizeTitle (s : String) : String :=
  String.mk (((s.data.map Char.toLower).filter fun c =>
    (decide ('a' ≤ c) && decide (c ≤ 'z')) ||
    (decide ('0' ≤ c) && decide (c ≤ '9'))).take 100)

/-- `item.abstract?.length || 0`. -/
def abstractLen (r : SearchResult) : Nat :=
  (r.abstract.map String.length).getD 0

/-- `item.citation_count || 0`. -/
def citationCountOf (r : SearchResult) : Nat :=
  r.citation_count.getD 0

/-- The comparison on lines 70-71 of `src/apis/index.js`: the later duplicate
has a longer abstract or a higher citation count than the stored entry. -/
def moreData (item existing : SearchResult) : Bool :=
  decide (abstractLen existing < abstractLen item) ||
  decide (citationCountOf existing < citationCountOf item)

/-- `seen.get(key)` / `seen.has(key)` of the JavaScript `Map`, on an
association list. -/
def lookupSeen (seen : List (String × SearchResult)) (k : String) :
    Option SearchResult :=
  match seen with
  | [] => none
  | (k₁, v₁) :: rest => if k₁ = k then some v₁ else lookupSeen rest k

/-- `seen.set(key, item)`: replace the value stored under an existing key, or
append a new entry. -/
def setSeen (seen : List (String × SearchResult)) (k : String)
    (v : SearchResult) : List (String × SearchResult) :=
  match seen with
  | [] => [(k, v)]
  | (k₁, v₁) :: rest =>
      if k₁ = k then (k, v) :: rest else (k₁, v₁) :: setSeen rest k v

/-- The body of `deduplicateResults` (lines 58-80 of `src/apis/index.js`):
a `filter` over the input that keeps an item exactly when its normalised
title has not been seen, while a seen later duplicate may replace the stored
`Map` value (when `moreData`) but is itself dropped (`return false`). -/
def deduplicateAux (seen : List (String × SearchResult)) :
    List SearchResult → List SearchResult
  | [] => []
  | item :: rest =>
      match lookupSeen seen (normalizeTitle item.title) with
      | some existing =>
          deduplicateAux
            (if moreData item existing then
              setSeen seen (normalizeTitle item.title) item
            else seen) rest
      | none =>
          item :: deduplicateAux
            (setSeen seen (normalizeTitle item.title) item) rest

/-- `APIManager.deduplicateResults(results)`. -/
def deduplicateResults (results : List SearchResult) : List SearchResult :=
  deduplicateAux [] results

/-- Specification-side reference function: keep exactly the first occurrence
of each normalised title, in input order.  Stated from the words of the
claim, to be compared with `deduplicateResults`. -/
def keepFirstsAux (keys : List String) :
    List SearchResult → List SearchResult
  | [] => []
  | item :: rest =>
      if normalizeTitle item.title ∈ keys then keepFirstsAux keys rest
      else item :: keepFirstsAux (normalizeTitle item.title :: keys) rest

/-- Keep the first occurrence of every normalised title. -/
def keepFirsts (results : List SearchResult) : List SearchResult :=
  keepFirstsAux [] results

/-! ## The store (src/db/schema.sql, src/db/database.js)

Each table is a list of rows in insertion order.  Row types keep the columns
the claims depend on; free-text and JSON-array columns that no claim reads
(authors, urls, evidence lists, milestones, ...) are dropped. -/

/-- A row of the `discoveries` table.  `external_id`, `relevance_score` and
`priority` are nullable columns; `processed` defaults to `FALSE`. -/
structure DiscoveryRow where
  id : String
  source : String
  external_id : Option String
  title : String
  relevance_score : Option Int
  priority : Option String
  processed : Bool
deriving DecidableEq, Repr

/-- A row of the `hypotheses` table.  `title` and `statement` are
`TEXT NOT NULL`; `status` defaults to `generated`. -/
structure HypothesisRow where
  id : String
  discovery_id : String
  title : String
  statement : String
  status : String
deriving DecidableEq, Repr

/-- A row of the `validations` table (evidence lists and key papers
dropped). -/
structure ValidationRow where
  id : String
  hypothesis_id : String
  confidence_level : String
  recommendation : String
  summary : String
deriving DecidableEq, Repr

/-- A row of the `projects` table (methodology, milestones, costs dropped);
`status` defaults to `drafted`. -/
structure ProjectRow where
  id : String
  hypothesis_id : String
  title : String
  status : String
deriving DecidableEq, Repr

/-- A row of the `reviews` table (question and risk lists dropped). -/
structure ReviewRow where
  id : String
  project_id : String
  overall_assessment : String
deriving DecidableEq, Repr

/-- A row of the append-only `activity_log` table.  The free-text summary is
not modelled and is always recorded as the empty string. -/
structure ActivityRow where
  agent : String
  action : String
  entity_type : Option String
  entity_id : Option String
  summary : String
deriving DecidableEq, Repr

/-- The whole store. -/
structure DBState where
  discoveries : List DiscoveryRow
  hypotheses : List HypothesisRow
  validations : List ValidationRow
  projects : List ProjectRow
  reviews : List ReviewRow
  activity : List ActivityRow
deriving DecidableEq, Repr

/-- The empty store. -/
def emptyDB : DBState := ⟨[], [], [], [], [], []⟩

/-- Argument of `insertDiscovery`: the fields bound on lines 79-104 of
`src/db/database.js` that the row type keeps.  `id` is optional — when it is
absent a fresh uuid is generated. -/
structure DiscoveryInput where
  id : Option String
  source : String
  external_id : Option String
  title : String
  relevance_score : Option Int
  priority : Option String
deriving DecidableEq, Repr

/-- `db.insertDiscovery(discovery)` (lines 79-107 of `src/db/database.js`):
`id = discovery.id || uuidv4()` followed by `INSERT OR REPLACE INTO
discoveries`.  The `uuidv4()` call is modelled by the `fresh` parameter.
`INSERT OR REPLACE` deletes any row with the same primary key `id` and
appends the new row; the new row always has `processed = false` (the column
default).  Returns the id used. -/
def insertDiscovery (st : DBState) (d : DiscoveryInput) (fresh : String) :
    String × DBState :=
  let newId := d.id.getD fresh
  let row : DiscoveryRow :=
    ⟨newId, d.source, d.external_id, d.title, d.relevance_score, d.priority, false⟩
  (newId,
   { st with discoveries := (st.discoveries.filter fun r => r.id != newId) ++ [row] })

/-- `db.markDiscoveryProcessed(id)`: `UPDATE discoveries SET processed = 1
WHERE id = ?`. -/
def markDiscoveryProcessed (st : DBState) (id : String) : DBState :=
  { st with discoveries := st.discoveries.map fun r =>
      if r.id = id then { r with processed := true } else r }

/-- `db.get('SELECT * FROM discoveries WHERE id = ?', [id])`. -/
def getDiscovery (st : DBState) (id : String) : Option DiscoveryRow :=
  st.discoveries.find? fun r => r.id == id

/-- `db.updateHypothesisStatus(id, status)`: `UPDATE hypotheses SET
status = ? WHERE id = ?`. -/
def updateHypothesisStatus (st : DBState) (id status : String) : DBState :=
  { st with hypotheses := st.hypotheses.map fun h =>
      if h.id = id then { h with status := status } else h }

/-- Status of a hypothesis row, by id. -/
def getHypothesisStatus (st : DBState) (id : String) : Option String :=
  (st.hypotheses.find? fun h => h.id == id).map HypothesisRow.status

/-- `db.insertValidation(validation)`: plain `INSERT` of a new row. -/
def insertValidation (st : DBState) (v : ValidationRow) : DBState :=
  { st with validations := st.validations ++ [v] }

/-- `db.insertProject(project)`: plain `INSERT`; the `status` column takes
its default `drafted`, which the caller of this model supplies in the row. -/
def insertProject (st : DBState) (p : ProjectRow) : DBState :=
  { st with projects := st.projects ++ [p] }

/-- `db.updateProjectStatus(id, status)`. -/
def updateProjectStatus (st : DBState) (id status : String) : DBState :=
  { st with projects := st.projects.map fun p =>
      if p.id = id then { p with status := status } else p }

/-- Status of a project row, by id. -/
def getProjectStatus (st : DBState) (id : String) : Option String :=
  (st.projects.find? fun p => p.id == id).map ProjectRow.status

/-- `db.insertReview(review)`: plain `INSERT`. -/
def insertReview (st : DBState) (r : ReviewRow) : DBState :=
  { st with reviews := st.reviews ++ [r] }

/-- `db.logActivity(agent, action, entityType, entityId, summary)`: append to
the `activity_log` table.  The free-text summary is recorded as `""`. -/
def logActivity (st : DBState) (agent action : String)
    (entityType entityId : Option String) : DBState :=
  { st with activity := st.activity ++ [⟨agent, action, entityType, entityId, ""⟩] }

/-! ## Agent operations

The result of a stage operation: either a JavaScript return value or a
thrown exception.  Both carry the store, because writes performed before a
throw persist. -/

/-- Outcome of one agent operation on the store. -/
inductive StageResult (α : Type) where
  | ok : α → DBState → StageResult α
  | thrown : String → DBState → StageResult α
deriving DecidableEq, Repr

/-- The store after the operation, whether it returned or threw. -/
def StageResult.state {α : Type} : StageResult α → DBState
  | .ok _ st => st
  | .thrown _ st => st

/-- `true` exactly when the operation returned normally. -/
def StageResult.isOk {α : Type} : StageResult α → Bool
  | .ok _ _ => true
  | .thrown _ _ => false

/-- `BaseAgent.chat(prompt)` (base agent, lines 185-221): the
generative-model call either throws — modelled by the `Except.error` case of
the `outcome` environment parameter, in which case nothing is written — or
returns the response text after appending a `chat` activity row.  The prompt
text and conversation history are not modelled. -/
def agentChat (st : DBState) (agentId : String)
    (outcome : Except String String) : StageResult String :=
  match outcome with
  | .error msg => .thrown msg st
  | .ok resp => .ok resp (logActivity st agentId "chat" none none)

/-- The status mapping on lines 87-89 of `src/agents/sage.js`:
`pursue → validated`, `reject → rejected`, anything else → `validating`. -/
def newStatusFor (recommendation : String) : String :=
  if recommendation = "pursue" then "validated"
  else if recommendation = "reject" then "rejected"
  else "validating"

/-- The fields of a parsed validation response that the model keeps. -/
structure SageParsed where
  confidence_level : String
  recommendation : String
  summary : String
deriving DecidableEq, Repr

/-- Environment of one `validateHypothesis` call: the outcome of the
generative call, the result of `parseJsonResponse` on its response (`none`
models malformed output), and the uuid drawn for the validation row. -/
structure SageEnv where
  chatOutcome : Except String String
  parsed : Option SageParsed
  freshId : String
deriving Repr

/-- `SageAgent.validateHypothesis(hypothesis)` (`src/agents/sage.js`,
lines 13-111).  The literature search of lines 20-28 is wrapped in its own
try/catch in the source, writes nothing to the store and only contributes
prompt text, so it does not appear here.  When the response parses, the
agent inserts the validation row, rewrites the hypothesis status to
`newStatusFor recommendation`, and logs the activity; when parsing fails it
returns `null`; when the generative call throws, the exception propagates. -/
def validateHypothesis (st : DBState) (hyp : HypothesisRow) (env : SageEnv) :
    StageResult (Option ValidationRow) :=
  match agentChat st "sage" env.chatOutcome with
  | .thrown msg st₁ => .thrown msg st₁
  | .ok _ st₁ =>
      match env.parsed with
      | none => .ok none st₁
      | some parsed =>
          let row : ValidationRow :=
            ⟨env.freshId, hyp.id, parsed.confidence_level,
             parsed.recommendation, parsed.summary⟩
          let st₂ := insertValidation st₁ row
          let st₃ := updateHypothesisStatus st₂ hyp.id
            (newStatusFor parsed.recommendation)
          let st₄ := logActivity st₃ "sage" "validate_hypothesis"
            (some "validation") (some env.freshId)
          .ok (some row) st₄

/-- One candidate artifact descriptor from a parsed generation response.
`title` and `statement` are raw JSON fields and may be absent. -/
structure HypDescriptor where
  title : Option String
  statement : Option String
deriving DecidableEq, Repr

/-- `db.insertHypothesis(hypothesis)` (lines 145-166 of
`src/db/database.js`): binds `hypothesis.title` and `hypothesis.statement`
directly into `TEXT NOT NULL` columns.  A missing field therefore makes the
insert throw (a bind failure or a NOT NULL constraint violation); any string
— the empty string included — is accepted.  Returns the inserted row. -/
def insertHypothesis (st : DBState) (discoveryId : String)
    (d : HypDescriptor) (fresh : String) : StageResult HypothesisRow :=
  match d.title, d.statement with
  | some t, some s =>
      let row : HypothesisRow := ⟨fresh, discoveryId, t, s, "generated"⟩
      .ok row { st with hypotheses := st.hypotheses ++ [row] }
  | _, _ => .thrown "NOT NULL constraint failed: hypotheses" st

/-- The insertion loop of `generateHypotheses` (lines 61-83 of
`src/agents/oracle.js`): every descriptor of the parsed response is inserted
in order, with no field validation; an insert failure propagates. -/
def insertHypothesesLoop (discoveryId : String) (fresh : Nat → String) :
    DBState → Nat → List HypDescriptor → StageResult (List HypothesisRow)
  | st, _, [] => .ok [] st
  | st, i, d :: rest =>
      match insertHypothesis st discoveryId d (fresh i) with
      | .thrown msg st₁ => .thrown msg st₁
      | .ok row st₁ =>
          match insertHypothesesLoop discoveryId fresh st₁ (i + 1) rest with
          | .thrown msg st₂ => .thrown msg st₂
          | .ok rows st₂ => .ok (row :: rows) st₂

/-- Environment of one `generateHypotheses` call: generative-call outcome,
parsed descriptor list (`none` models both malformed output and a response
without a `hypotheses` field, which the source treats alike on line 58), and
the uuid supply for the inserted rows. -/
structure OracleEnv where
  chatOutcome : Except String String
  parsed : Option (List HypDescriptor)
  fresh : Nat → String

/-- `OracleAgent.generateHypotheses(discovery)` (`src/agents/oracle.js`,
lines 11-97): on a parsed response, insert every descriptor and log one
activity row; on a malformed response return `[]`; a thrown generative call
propagates. -/
def generateHypotheses (st : DBState) (discovery : DiscoveryRow)
    (env : OracleEnv) : StageResult (List HypothesisRow) :=
  match agentChat st "oracle" env.chatOutcome with
  | .thrown msg st₁ => .thrown msg st₁
  | .ok _ st₁ =>
      match env.parsed with
      | none => .ok [] st₁
      | some descriptors =>
          match insertHypothesesLoop discovery.id env.fresh st₁ 0 descriptors with
          | .thrown msg st₂ => .thrown msg st₂
          | .ok rows st₂ =>
              .ok rows (logActivity st₂ "oracle" "generate_hypotheses"
                (some "hypothesis") none)

/-- The fields of a parsed project-design response that the model keeps. -/
structure ArchParsed where
  title : String
deriving DecidableEq, Repr

/-- Environment of one `designProject` call. -/
structure ArchEnv where
  chatOutcome : Except String String
  parsed : Option ArchParsed
  freshId : String
deriving Repr

/-- `ArchitectAgent.designProject(hypothesis, validation)`
(`src/agents/architect.js`, lines 11-103): on a parsed response, insert the
project with status `drafted`, rewrite the hypothesis status to `project`
(the stored name of the planned state, cf. the `status` column comment in
`schema.sql`), and log the activity; on a malformed response return `null`.
The validation argument only contributes prompt text. -/
def designProject (st : DBState) (hyp : HypothesisRow)
    (_validation : ValidationRow) (env : ArchEnv) :
    StageResult (Option ProjectRow) :=
  match agentChat st "architect" env.chatOutcome with
  | .thrown msg st₁ => .thrown msg st₁
  | .ok _ st₁ =>
      match env.parsed with
      | none => .ok none st₁
      | some parsed =>
          let row : ProjectRow := ⟨env.freshId, hyp.id, parsed.title, "drafted"⟩
          let st₂ := insertProject st₁ row
          let st₃ := updateHypothesisStatus st₂ hyp.id "project"
          let st₄ := logActivity st₃ "architect" "design_project"
            (some "project") (some env.freshId)
          .ok (some row) st₄

/-- The `statusMap` object literal of the adversary agent (lines 77-82):
the four documented dispositions. -/
def statusMap (assessment : String) : Option String :=
  if assessment = "proceed" then some "approved"
  else if assessment = "revise" then some "revision_needed"
  else if assessment = "pause" then some "paused"
  else if assessment = "abandon" then some "rejected"
  else none

/-- `statusMap[parsed.overall_assessment] || 'reviewed'` (line 83 of the
adversary agent): an assessment outside the map falls through to the
default status `reviewed`. -/
def projectStatusFor (assessment : String) : String :=
  (statusMap assessment).getD "reviewed"

/-- The fields of a parsed review response that the model keeps. -/
structure AdvParsed where
  overall_assessment : String
deriving DecidableEq, Repr

/-- Environment of one `reviewProject` call. -/
structure AdvEnv where
  chatOutcome : Except String String
  parsed : Option AdvParsed
  freshId : String
deriving Repr

/-- `AdversaryAgent.reviewProject(project, hypothesis)` (lines 11-97 of the
adversary agent): on a parsed response, insert the review row, rewrite the
project status to `projectStatusFor overall_assessment`, and log the
activity; on a malformed response return `null`. -/
def reviewProject (st : DBState) (project : ProjectRow)
    (_hyp : HypothesisRow) (env : AdvEnv) : StageResult (Option ReviewRow) :=
  match agentChat st "adversary" env.chatOutcome with
  | .thrown msg st₁ => .thrown msg st₁
  | .ok _ st₁ =>
      match env.parsed with
      | none => .ok none st₁
      | some parsed =>
          let row : ReviewRow := ⟨env.freshId, project.id, parsed.overall_assessment⟩
          let st₂ := insertReview st₁ row
          let st₃ := updateProjectStatus st₂ project.id
            (projectStatusFor parsed.overall_assessment)
          let st₄ := logActivity st₃ "adversary" "review_project"
            (some "review") (some env.freshId)
          .ok (some row) st₄

/-- One entry of the `scores` array in a parsed triage response: the triage
agent reads `discovery_id`, `total` and `priority` (lines 72-79 of the
triage agent); the component scores and the reasoning text are not read
back. -/
structure ScoreEntry where
  discovery_id : String
  total : Int
  priority : String
deriving DecidableEq, Repr

/-- Environment of one `scoreDiscoveries` call; `parsed = none` models both
malformed output and a response without a `scores` field. -/
structure TriageEnv where
  chatOutcome : Except String String
  parsed : Option (List ScoreEntry)
deriving Repr

/-- The per-score store update of `scoreDiscoveries` (lines 72-81 of the
triage agent): when the scored id is found among the input discoveries, run
`UPDATE discoveries SET relevance_score = ?, priority = ? WHERE id = ?` with
the total and priority taken verbatim from the response. -/
def applyScore (batch : List DiscoveryRow) (st : DBState)
    (score : ScoreEntry) : DBState :=
  if (batch.find? fun d => d.id == score.discovery_id).isSome then
    { st with discoveries := st.discoveries.map fun r =>
        if r.id = score.discovery_id then
          { r with relevance_score := some score.total,
                   priority := some score.priority }
        else r }
  else st

/-- `TriageAgent.scoreDiscoveries(discoveries)` (lines 11-93 of the triage
agent): on a parsed response, apply every score to the store and log one
activity row, returning the parsed scores; on a malformed response return
`null`; a thrown generative call propagates.  The classification thresholds
appear only in the prompt text, not in any code path. -/
def scoreDiscoveries (st : DBState) (batch : List DiscoveryRow)
    (env : TriageEnv) : StageResult (Option (List ScoreEntry)) :=
  match agentChat st "triage" env.chatOutcome with
  | .thrown msg st₁ => .thrown msg st₁
  | .ok _ st₁ =>
      match env.parsed with
      | none => .ok none st₁
      | some scores =>
          let st₂ := scores.foldl (applyScore batch) st₁
          .ok (some scores)
            (logActivity st₂ "triage" "score_discoveries" (some "discovery") none)

/-- The classification documented in the triage prompt (lines 36-39 of the
triage agent): HIGH is 70-100, MEDIUM is 40-69, LOW is 0-39.  The code never
evaluates these thresholds; this function transcribes the documented policy
for comparison with what is persisted. -/
def bucketOf (total : Int) : String :=
  if 70 ≤ total then "high" else if 40 ≤ total then "medium" else "low"

/-! ## The pipeline orchestrator

`PipelineOrchestrator` sequences the stages.  The discovery stage calls the
external connectors and is represented by its output, the list of discovery
rows already in the store; each later stage takes one environment per
generative call, indexed by the position of the unit in the batch. -/

/-- The batching of `runTriageStage` (lines 72-84 of the orchestrator):
`discoveries.slice(i, i + 10)` for `i = 0, 10, 20, ...`.  The `fuel`
argument makes the recursion structural; `batchesOfTen` supplies the list
length, which bounds the number of batches, so the `fuel = 0` branch is
never taken. -/
def batchesFuel : Nat → List DiscoveryRow → List (List DiscoveryRow)
  | _, [] => []
  | 0, _ :: _ => []
  | fuel + 1, d :: rest =>
      ((d :: rest).take 10) :: batchesFuel fuel ((d :: rest).drop 10)

/-- Split the discoveries into consecutive batches of ten. -/
def batchesOfTen (l : List DiscoveryRow) : List (List DiscoveryRow) :=
  batchesFuel l.length l

/-- The batch loop of `runTriageStage`: scores of a batch whose response
parsed are accumulated (`if (result && result.scores)`); a thrown call
propagates — there is no per-batch catch. -/
def runTriageBatches (envs : Nat → TriageEnv) :
    DBState → Nat → List (List DiscoveryRow) → StageResult (List ScoreEntry)
  | st, _, [] => .ok [] st
  | st, i, batch :: rest =>
      match scoreDiscoveries st batch (envs i) with
      | .thrown msg st₁ => .thrown msg st₁
      | .ok parsedScores st₁ =>
          match runTriageBatches envs st₁ (i + 1) rest with
          | .thrown msg st₂ => .thrown msg st₂
          | .ok more st₂ => .ok (parsedScores.getD [] ++ more) st₂

/-- The three priority buckets built on lines 86-90 of the orchestrator by
filtering the accumulated scores on their `priority` string. -/
structure Prioritized where
  high : List ScoreEntry
  medium : List ScoreEntry
  low : List ScoreEntry
deriving DecidableEq, Repr

/-- Lines 86-90 of the orchestrator. -/
def prioritize (allScores : List ScoreEntry) : Prioritized :=
  ⟨allScores.filter fun s => s.priority == "high",
   allScores.filter fun s => s.priority == "medium",
   allScores.filter fun s => s.priority == "low"⟩

/-- `runTriageStage(discoveries)` (lines 61-94 of the orchestrator). -/
def runTriageStage (st : DBState) (discoveries : List DiscoveryRow)
    (envs : Nat → TriageEnv) : StageResult Prioritized :=
  if discoveries.isEmpty then .ok ⟨[], [], []⟩ st
  else
    match runTriageBatches envs st 0 (batchesOfTen discoveries) with
    | .thrown msg st₁ => .thrown msg st₁
    | .ok allScores st₁ => .ok (prioritize allScores) st₁

/-- The loop of `runHypothesisStage` (lines 114-127 of the orchestrator):
for each scored entry, look the discovery up in the store and skip the entry
when it is absent (`if (!discovery) continue`); otherwise generate
hypotheses for it and mark it processed.  A thrown call propagates — there
is no per-item catch. -/
def runHypothesisGo (envs : Nat → OracleEnv) :
    DBState → Nat → List ScoreEntry → StageResult (List HypothesisRow)
  | st, _, [] => .ok [] st
  | st, i, scored :: rest =>
      match getDiscovery st scored.discovery_id with
      | none => runHypothesisGo envs st (i + 1) rest
      | some discovery =>
          match generateHypotheses st discovery (envs i) with
          | .thrown msg st₁ => .thrown msg st₁
          | .ok hyps st₁ =>
              let st₂ := markDiscoveryProcessed st₁ scored.discovery_id
              match runHypothesisGo envs st₂ (i + 1) rest with
              | .thrown msg st₃ => .thrown msg st₃
              | .ok more st₃ => .ok (hyps ++ more) st₃

/-- `runHypothesisStage(prioritizedDiscoveries)` (lines 100-131 of the
orchestrator): only `prioritizedDiscoveries.high` is read; the medium and
low buckets are never consulted, and no count limit is applied. -/
def runHypothesisStage (st : DBState) (prioritized : Prioritized)
    (envs : Nat → OracleEnv) : StageResult (List HypothesisRow) :=
  runHypothesisGo envs st 0 prioritized.high

/-- The loop of `runValidationStage` (lines 150-156 of the orchestrator): a
unit whose validation returns `null` is skipped; a thrown call propagates —
there is no per-unit catch. -/
def runValidationGo (envs : Nat → SageEnv) :
    DBState → Nat → List HypothesisRow →
    StageResult (List (HypothesisRow × ValidationRow))
  | st, _, [] => .ok [] st
  | st, i, hyp :: rest =>
      match validateHypothesis st hyp (envs i) with
      | .thrown msg st₁ => .thrown msg st₁
      | .ok none st₁ => runValidationGo envs st₁ (i + 1) rest
      | .ok (some v) st₁ =>
          match runValidationGo envs st₁ (i + 1) rest with
          | .thrown msg st₂ => .thrown msg st₂
          | .ok more st₂ => .ok ((hyp, v) :: more) st₂

/-- `runValidationStage(hypotheses)` (lines 137-161 of the orchestrator). -/
def runValidationStage (st : DBState) (hypotheses : List HypothesisRow)
    (envs : Nat → SageEnv) : StageResult (List (HypothesisRow × ValidationRow)) :=
  runValidationGo envs st 0 hypotheses

/-- The `pursuable` filter of `runProjectDesignStage` (lines 173-176 of the
orchestrator): keep the pairs whose validation recommends `pursue` or
`modify`.  Eligibility for project design is decided by this
recommendation, not by the stored hypothesis status. -/
def pursuableOf (validations : List (HypothesisRow × ValidationRow)) :
    List (HypothesisRow × ValidationRow) :=
  validations.filter fun v =>
    v.2.recommendation == "pursue" || v.2.recommendation == "modify"

/-- The loop of `runProjectDesignStage` (lines 185-191). -/
def runProjectGo (envs : Nat → ArchEnv) :
    DBState → Nat → List (HypothesisRow × ValidationRow) →
    StageResult (List (HypothesisRow × ValidationRow × ProjectRow))
  | st, _, [] => .ok [] st
  | st, i, (hyp, v) :: rest =>
      match designProject st hyp v (envs i) with
      | .thrown msg st₁ => .thrown msg st₁
      | .ok none st₁ => runProjectGo envs st₁ (i + 1) rest
      | .ok (some p) st₁ =>
          match runProjectGo envs st₁ (i + 1) rest with
          | .thrown msg st₂ => .thrown msg st₂
          | .ok more st₂ => .ok ((hyp, v, p) :: more) st₂

/-- `runProjectDesignStage(validations)` (lines 167-195 of the
orchestrator). -/
def runProjectDesignStage (st : DBState)
    (validations : List (HypothesisRow × ValidationRow))
    (envs : Nat → ArchEnv) :
    StageResult (List (HypothesisRow × ValidationRow × ProjectRow)) :=
  runProjectGo envs st 0 (pursuableOf validations)

/-- The loop of `runReviewStage` (lines 214-220). -/
def runReviewGo (envs : Nat → AdvEnv) :
    DBState → Nat → List (HypothesisRow × ValidationRow × ProjectRow) →
    StageResult (List (HypothesisRow × ProjectRow × ReviewRow))
  | st, _, [] => .ok [] st
  | st, i, (hyp, _, p) :: rest =>
      match reviewProject st p hyp (envs i) with
      | .thrown msg st₁ => .thrown msg st₁
      | .ok none st₁ => runReviewGo envs st₁ (i + 1) rest
      | .ok (some r) st₁ =>
          match runReviewGo envs st₁ (i + 1) rest with
          | .thrown msg st₂ => .thrown msg st₂
          | .ok more st₂ => .ok ((hyp, p, r) :: more) st₂

/-- `runReviewStage(projectData)` (lines 201-225 of the orchestrator). -/
def runReviewStage (st : DBState)
    (projectData : List (HypothesisRow × ValidationRow × ProjectRow))
    (envs : Nat → AdvEnv) :
    StageResult (List (HypothesisRow × ProjectRow × ReviewRow)) :=
  runReviewGo envs st 0 projectData

/-- The generative-call environments of one full run. -/
structure PipelineEnv where
  triage : Nat → TriageEnv
  oracle : Nat → OracleEnv
  sage : Nat → SageEnv
  architect : Nat → ArchEnv
  adversary : Nat → AdvEnv

/-- The stage outputs collected by a successful `runFullPipeline`. -/
structure PipelineData where
  prioritized : Prioritized
  hypotheses : List HypothesisRow
  validations : List (HypothesisRow × ValidationRow)
  projects : List (HypothesisRow × ValidationRow × ProjectRow)
  reviews : List (HypothesisRow × ProjectRow × ReviewRow)
deriving DecidableEq, Repr

/-- The value returned by `runFullPipeline` (lines 280-296 of the
orchestrator): `{success: true, ...stage outputs}` on success and
`{success: false, error}` when the top-level catch fires.  The returned
object has no failures list of any kind — this field list mirrors the
source. -/
structure RunResult where
  success : Bool
  error : Option String
  data : Option PipelineData
deriving DecidableEq, Repr

/-- The stage sequence inside the `try` of `runFullPipeline` (lines 238-255
of the orchestrator), starting from the discovery-stage output
`discoveries`, which the discovery stage has already inserted into the
store.  Each stage output feeds the next; a throw anywhere propagates. -/
def runPipelineStages (st : DBState) (discoveries : List DiscoveryRow)
    (env : PipelineEnv) : StageResult PipelineData :=
  match runTriageStage st discoveries env.triage with
  | .thrown msg st₁ => .thrown msg st₁
  | .ok prioritized st₁ =>
      match runHypothesisStage st₁ prioritized env.oracle with
      | .thrown msg st₂ => .thrown msg st₂
      | .ok hyps st₂ =>
          match runValidationStage st₂ hyps env.sage with
          | .thrown msg st₃ => .thrown msg st₃
          | .ok validations st₃ =>
              match runProjectDesignStage st₃ validations env.architect with
              | .thrown msg st₄ => .thrown msg st₄
              | .ok projects st₄ =>
                  match runReviewStage st₄ projects env.adversary with
                  | .thrown msg st₅ => .thrown msg st₅
                  | .ok reviews st₅ =>
                      .ok ⟨prioritized, hyps, validations, projects, reviews⟩ st₅

/-- `runFullPipeline(options)` (lines 230-297 of the orchestrator): the
whole stage sequence runs inside one `try`; any exception reaching the top
is caught once and turned into `{success: false, error}` — the units after
the throwing one are never processed and no failure list is produced.  The
report generation of the success path writes no store state and is not
modelled. -/
def runFullPipeline (st : DBState) (discoveries : List DiscoveryRow)
    (env : PipelineEnv) : RunResult × DBState :=
  match runPipelineStages st discoveries env with
  | .thrown msg st₁ => (⟨false, some msg, none⟩, st₁)
  | .ok data st₁ => (⟨true, none, some data⟩, st₁)

/-! ## Status order and stage operations on one artifact

Support for the monotonicity claim: the spec orders the hypothesis statuses
`generated < validating < validated/rejected < planned`, where the stored
name of the planned state is `project`. -/

/-- Rank of a status in the order of the spec. -/
def statusRank (s : String) : Nat :=
  if s = "generated" then 0
  else if s = "validating" then 1
  else if s = "validated" then 2
  else if s = "rejected" then 2
  else if s = "project" then 3
  else 0

/-- A stage operation observed by one hypothesis: a successful
`validateHypothesis` whose parsed response carries the given
recommendation, or a successful `designProject`. -/
inductive StageOp where
  | validate : String → StageOp
  | plan : StageOp
deriving DecidableEq, Repr

/-- The status written by a stage operation.  `validateHypothesis` writes
`newStatusFor recommendation` whatever the current status is (line 90 of
`src/agents/sage.js`); `designProject` writes `project` (line 82 of
`src/agents/architect.js`). -/
def applyOp (_current : String) : StageOp → String
  | .validate r => newStatusFor r
  | .plan => "project"

/-- The statuses observed over a sequence of stage operations, starting from
`init`. -/
def statusTrace (init : String) (ops : List StageOp) : List String :=
  ops.scanl applyOp init

/-! ## Helper lemmas -/

/-- After a status `UPDATE` on the hypotheses table, the row found for the
updated id carries the new status, provided a row with that id exists. -/
theorem find_update_hypothesis (l : List HypothesisRow) (id s : String)
    (h : ∃ q ∈ l, q.id = id) :
    ((l.map fun q => if q.id = id then { q with status := s } else q).find?
        fun q => q.id == id).map HypothesisRow.status = some s := by
  induction l with
  | nil =>
      obtain ⟨q, hq, _⟩ := h
      exact absurd hq (List.not_mem_nil q)
  | cons a rest ih =>
      by_cases ha : a.id = id
      · simp only [List.map_cons, if_pos ha]
        rw [List.find?_cons_of_pos]
        · rfl
        · exact beq_iff_eq.mpr ha
      · simp only [List.map_cons, if_neg ha]
        rw [List.find?_cons_of_neg]
        · apply ih
          obtain ⟨q, hq, hqid⟩ := h
          rcases List.mem_cons.mp hq with h₁ | h₁
          · exact absurd (h₁ ▸ hqid) ha
          · exact ⟨q, h₁, hqid⟩
        · simp only [beq_iff_eq]
          exact ha

/-- After a status `UPDATE` on the projects table, the row found for the
updated id carries the new status, provided a row with that id exists. -/
theorem find_update_project (l : List ProjectRow) (id s : String)
    (h : ∃ q ∈ l, q.id = id) :
    ((l.map fun q => if q.id = id then { q with status := s } else q).find?
        fun q => q.id == id).map ProjectRow.status = some s := by
  induction l with
  | nil =>
      obtain ⟨q, hq, _⟩ := h
      exact absurd hq (List.not_mem_nil q)
  | cons a rest ih =>
      by_cases ha : a.id = id
      · simp only [List.map_cons, if_pos ha]
        rw [List.find?_cons_of_pos]
        · rfl
        · exact beq_iff_eq.mpr ha
      · simp only [List.map_cons, if_neg ha]
        rw [List.find?_cons_of_neg]
        · apply ih
          obtain ⟨q, hq, hqid⟩ := h
          rcases List.mem_cons.mp hq with h₁ | h₁
          · exact absurd (h₁ ▸ hqid) ha
          · exact ⟨q, h₁, hqid⟩
        · simp only [beq_iff_eq]
          exact ha

/-- Every status produced by the validation mapping ranks at least
`validating`. -/
theorem one_le_statusRank_newStatusFor (r : String) :
    1 ≤ statusRank (newStatusFor r) := by
  unfold newStatusFor
  split
  · decide
  · split
    · decide
    · decide

/-- No status ranks above `project`. -/
theorem statusRank_le_three (s : String) : statusRank s ≤ 3 := by
  unfold statusRank
  repeat' split
  all_goals omega

/-! ## C1 — status monotonicity -/

/-- C1: counterexample.  The claim states that no stage operation ever
writes a status lower in the order `generated < validating <
validated/rejected < planned` than the current one.  It is false: validating
an artifact with recommendation `pursue` and then re-validating it with
recommendation `modify` yields the observed status sequence
`generated, validated, validating`, which regresses from rank 2 to rank 1,
because `validateHypothesis` writes `newStatusFor recommendation`
unconditionally. -/
theorem c1_counterexample :
    statusTrace "generated"
        [StageOp.validate "pursue", StageOp.validate "modify"] =
      ["generated", "validated", "validating"] ∧
    statusRank "validating" < statusRank "validated" := by
  decide

/-- C1 (amended): the status written by a stage operation depends only on
the operation, not on the current status; a validation step never decreases
the status of an artifact currently in `generated` or `validating` (rank at
most 1), and a planning step never decreases any status; but re-validating
an already-validated artifact can regress it (see the counterexample). -/
theorem c1_amended :
    (∀ cur r, statusRank cur ≤ 1 →
       statusRank cur ≤ statusRank (applyOp cur (StageOp.validate r))) ∧
    (∀ cur, statusRank cur ≤ statusRank (applyOp cur StageOp.plan)) ∧
    (∀ cur₁ cur₂ op, applyOp cur₁ op = applyOp cur₂ op) := by
  refine ⟨?_, ?_, ?_⟩
  · intro cur r h
    exact le_trans h (one_le_statusRank_newStatusFor r)
  · intro cur
    have h₃ : statusRank "project" = 3 := by decide
    show statusRank cur ≤ statusRank "project"
    rw [h₃]
    exact statusRank_le_three cur
  · intro cur₁ cur₂ op
    cases op <;> rfl

/-- C1 witness: the amended monotonicity applied to a `generated` artifact
validated with recommendation `modify`. -/
theorem c1_amended_witness :
    statusRank "generated" ≤ 1 ∧
    statusRank "generated" ≤
      statusRank (applyOp "generated" (StageOp.validate "modify")) :=
  ⟨by decide, c1_amended.1 "generated" "modify" (by decide)⟩

/-! ## C2 — disposition-to-status mapping of the critique stage -/

/-- Fixture hypothesis row for the review counterexample. -/
def c2hyp : HypothesisRow := ⟨"h1", "d1", "H", "If X then Y", "validated"⟩

/-- Fixture project row for the review counterexample. -/
def c2project : ProjectRow := ⟨"p1", "h1", "Plan A", "drafted"⟩

/-- Fixture store for the review counterexample. -/
def c2store : DBState := ⟨[], [c2hyp], [], [c2project], [], []⟩

/-- Review environment whose parsed disposition is outside the four enum
values. -/
def c2env : AdvEnv := ⟨Except.ok "resp", some ⟨"escalate"⟩, "r1"⟩

/-- C2: counterexample.  The claim states that for a disposition outside
`proceed/revise/pause/abandon` the critique fails fast and writes no other
status.  It is false: reviewing a project whose parsed response carries the
disposition `escalate` succeeds and writes the fallthrough status
`reviewed` onto the project
(`statusMap[parsed.overall_assessment] || 'reviewed'`). -/
theorem c2_counterexample :
    (reviewProject c2store c2project c2hyp c2env).isOk = true ∧
    getProjectStatus (reviewProject c2store c2project c2hyp c2env).state "p1"
      = some "reviewed" ∧
    projectStatusFor "escalate" = "reviewed" := by
  decide

/-- C2 (amended): the four documented dispositions map exactly as stated —
`proceed → approved`, `revise → revision_needed`, `pause → paused`,
`abandon → rejected` — and a successful review writes
`projectStatusFor overall_assessment` onto the plan; but a disposition
outside the four does not fail fast: it falls through to the default status
`reviewed`. -/
theorem c2_amended :
    projectStatusFor "proceed" = "approved" ∧
    projectStatusFor "revise" = "revision_needed" ∧
    projectStatusFor "pause" = "paused" ∧
    projectStatusFor "abandon" = "rejected" ∧
    (∀ a, a ≠ "proceed" → a ≠ "revise" → a ≠ "pause" → a ≠ "abandon" →
       projectStatusFor a = "reviewed") ∧
    (∀ st p hyp env parsed resp,
       env.chatOutcome = Except.ok resp → env.parsed = some parsed →
       (∃ q ∈ st.projects, q.id = p.id) →
       getProjectStatus (reviewProject st p hyp env).state p.id =
         some (projectStatusFor parsed.overall_assessment)) := by
  refine ⟨by decide, by decide, by decide, by decide, ?_, ?_⟩
  · intro a h₁ h₂ h₃ h₄
    unfold projectStatusFor statusMap
    rw [if_neg h₁, if_neg h₂, if_neg h₃, if_neg h₄]
    rfl
  · intro st p hyp env parsed resp hc hp hmem
    obtain ⟨c, pr, fid⟩ := env
    simp only at hc hp
    subst hc
    subst hp
    simp only [reviewProject, agentChat, StageResult.state, getProjectStatus,
      logActivity, insertReview, updateProjectStatus]
    exact find_update_project st.projects p.id _ hmem

/-- C2 witness: the amended mapping applied to the out-of-enum disposition
`escalate`. -/
theorem c2_amended_witness :
    projectStatusFor "escalate" = "reviewed" :=
  c2_amended.2.2.2.2.1 "escalate" (by decide) (by decide) (by decide)
    (by decide)

/-! ## C3 — the recommendation determines the next status -/

/-- C3: after `validateHypothesis` completes successfully with a parsed
validation, the status written onto the artifact is
`newStatusFor recommendation` — a function of the recommendation alone,
whatever the store and the prior status — with `pursue → validated`,
`reject → rejected` (the terminal branch), `modify → validating` and
`needs_more_research → validating`; and eligibility for the project-design
stage is decided by the recommendation: a validated pair is pursuable
exactly when its recommendation is `pursue` or `modify`, so an artifact
validated with recommendation `modify` is eligible for planning. -/
theorem c3_recommendation_determines_status :
    newStatusFor "pursue" = "validated" ∧
    newStatusFor "reject" = "rejected" ∧
    newStatusFor "modify" = "validating" ∧
    newStatusFor "needs_more_research" = "validating" ∧
    (∀ st hyp env parsed resp,
       env.chatOutcome = Except.ok resp → env.parsed = some parsed →
       (∃ q ∈ st.hypotheses, q.id = hyp.id) →
       getHypothesisStatus (validateHypothesis st hyp env).state hyp.id =
         some (newStatusFor parsed.recommendation)) ∧
    (∀ vs p, p ∈ pursuableOf vs ↔
       p ∈ vs ∧
       (p.2.recommendation = "pursue" ∨ p.2.recommendation = "modify")) := by
  refine ⟨by decide, by decide, by decide, by decide, ?_, ?_⟩
  · intro st hyp env parsed resp hc hp hmem
    obtain ⟨c, pr, fid⟩ := env
    simp only at hc hp
    subst hc
    subst hp
    simp only [validateHypothesis, agentChat, StageResult.state,
      getHypothesisStatus, logActivity, insertValidation,
      updateHypothesisStatus]
    exact find_update_hypothesis st.hypotheses hyp.id _ hmem
  · intro vs p
    simp [pursuableOf, List.mem_filter]

/-- Fixture hypothesis row for the C3 witness. -/
def c3hyp : HypothesisRow := ⟨"h3", "d3", "T", "If X then Y", "generated"⟩

/-- Fixture store for the C3 witness. -/
def c3store : DBState := ⟨[], [c3hyp], [], [], [], []⟩

/-- Validation environment whose parsed recommendation is `modify`. -/
def c3env : SageEnv := ⟨Except.ok "resp", some ⟨"medium", "modify", "ok"⟩, "v3"⟩

/-- C3 witness: the status mapping applied to a concrete store, hypothesis
and `modify` validation. -/
theorem c3_witness :
    getHypothesisStatus (validateHypothesis c3store c3hyp c3env).state "h3" =
      some (newStatusFor "modify") :=
  c3_recommendation_determines_status.2.2.2.2.1 c3store c3hyp c3env
    ⟨"medium", "modify", "ok"⟩ "resp" rfl rfl ⟨c3hyp, by decide, rfl⟩

/-! ## C4 — infrastructure failure leaves the artifact unchanged -/

/-- The validation returned by a `validateHypothesis` call: `none` both when
the call threw and when it returned `null`. -/
def returnedValidation (r : StageResult (Option ValidationRow)) :
    Option ValidationRow :=
  match r with
  | .ok v _ => v
  | .thrown _ _ => none

/-- C4: when the generative call inside `validateHypothesis` throws, the
call propagates the exception with the store exactly as it was — no
validation row is inserted and the artifact status is untouched; when the
call returns but the response does not parse, the call returns `null`, the
validations table is unchanged and the hypotheses table (statuses included)
is unchanged.  In particular an infrastructure failure never marks the
artifact `rejected`. -/
theorem c4_infra_failure_preserves_artifact :
    (∀ st hyp env msg, env.chatOutcome = Except.error msg →
       validateHypothesis st hyp env = StageResult.thrown msg st) ∧
    (∀ st hyp env resp,
       env.chatOutcome = Except.ok resp → env.parsed = none →
       returnedValidation (validateHypothesis st hyp env) = none ∧
       (validateHypothesis st hyp env).state.validations = st.validations ∧
       (validateHypothesis st hyp env).state.hypotheses = st.hypotheses) := by
  constructor
  · intro st hyp env msg hc
    obtain ⟨c, pr, fid⟩ := env
    simp only at hc
    subst hc
    rfl
  · intro st hyp env resp hc hp
    obtain ⟨c, pr, fid⟩ := env
    simp only at hc hp
    subst hc
    subst hp
    exact ⟨rfl, rfl, rfl⟩

/-- Fixture hypothesis row for the C4 witness. -/
def c4hyp : HypothesisRow := ⟨"h4", "d4", "T", "If X then Y", "validating"⟩

/-- Fixture store for the C4 witness. -/
def c4store : DBState := ⟨[], [c4hyp], [], [], [], []⟩

/-- Validation environment whose generative call throws. -/
def c4env : SageEnv := ⟨Except.error "ECONNRESET", none, "v4"⟩

/-- C4 witness: a throwing generative call applied to a concrete store and
hypothesis leaves the store exactly as it was. -/
theorem c4_witness :
    validateHypothesis c4store c4hyp c4env =
      StageResult.thrown "ECONNRESET" c4store :=
  c4_infra_failure_preserves_artifact.1 c4store c4hyp c4env "ECONNRESET" rfl

/-! ## C5 — failure handling of a stage batch -/

/-- First fixture discovery for the pipeline counterexample. -/
def c5d1 : DiscoveryRow := ⟨"d1", "pubmed", some "1", "Title one", none, none, false⟩

/-- Second fixture discovery for the pipeline counterexample. -/
def c5d2 : DiscoveryRow := ⟨"d2", "pubmed", some "2", "Title two", none, none, false⟩

/-- Fixture store holding the two discoveries. -/
def c5store : DBState := ⟨[c5d1, c5d2], [], [], [], [], []⟩

/-- Pipeline environments: triage marks both discoveries `high`, generation
yields one hypothesis per discovery, and the generative call of the FIRST
validation unit throws while the second would succeed with `pursue`. -/
def c5env : PipelineEnv :=
  { triage := fun _ =>
      ⟨Except.ok "r", some [⟨"d1", 80, "high"⟩, ⟨"d2", 75, "high"⟩]⟩
    oracle := fun i =>
      if i = 0 then ⟨Except.ok "r", some [⟨some "H1", some "S1"⟩], fun _ => "h1"⟩
      else ⟨Except.ok "r", some [⟨some "H2", some "S2"⟩], fun _ => "h2"⟩
    sage := fun i =>
      if i = 0 then ⟨Except.error "model call failed", none, "v1"⟩
      else ⟨Except.ok "r", some ⟨"high", "pursue", "ok"⟩, "v2"⟩
    architect := fun _ => ⟨Except.ok "r", some ⟨"P"⟩, "p1"⟩
    adversary := fun _ => ⟨Except.ok "r", some ⟨"proceed"⟩, "rv1"⟩ }

/-- C5: counterexample.  The claim states that a failure processing one unit
is caught, the stage proceeds to the remaining units and the run summary
lists the failure.  It is false: when the generative call of the first
validation unit throws, the whole batch and the whole run abort — the run
returns `success = false` with the bare error message, the second
hypothesis is never validated (it stays `generated` and the validations
table stays empty), and the result carries no failures list (`RunResult`
mirrors the shape returned by the source). -/
theorem c5_counterexample :
    (runFullPipeline c5store [c5d1, c5d2] c5env).1.success = false ∧
    (runFullPipeline c5store [c5d1, c5d2] c5env).1.error =
      some "model call failed" ∧
    (runFullPipeline c5store [c5d1, c5d2] c5env).2.validations = [] ∧
    getHypothesisStatus (runFullPipeline c5store [c5d1, c5d2] c5env).2 "h2" =
      some "generated" := by
  decide

/-- C5 (amended): the only unit-level failure the validation batch tolerates
is an agent returning `null` (a malformed response) — that unit is skipped
and the loop continues; a thrown exception in a unit aborts the batch at
once with the remaining units unprocessed, and the top-level catch of
`runFullPipeline` turns it into `{success := false, error}` with no failures
list. -/
theorem c5_amended :
    (∀ envs st i hyp rest resp,
       (envs i).chatOutcome = Except.ok resp → (envs i).parsed = none →
       runValidationGo envs st i (hyp :: rest) =
         runValidationGo envs (logActivity st "sage" "chat" none none)
           (i + 1) rest) ∧
    (∀ envs st i hyp rest msg,
       (envs i).chatOutcome = Except.error msg →
       runValidationGo envs st i (hyp :: rest) = StageResult.thrown msg st) ∧
    (∀ st ds env msg st₁,
       runPipelineStages st ds env = StageResult.thrown msg st₁ →
       runFullPipeline st ds env = (⟨false, some msg, none⟩, st₁)) := by
  refine ⟨?_, ?_, ?_⟩
  · intro envs st i hyp rest resp hc hp
    have hv : validateHypothesis st hyp (envs i) =
        StageResult.ok none (logActivity st "sage" "chat" none none) := by
      unfold validateHypothesis agentChat
      rw [hc, hp]
    simp only [runValidationGo]
    rw [hv]
  · intro envs st i hyp rest msg hc
    have hv : validateHypothesis st hyp (envs i) = StageResult.thrown msg st := by
      unfold validateHypothesis agentChat
      rw [hc]
    simp only [runValidationGo]
    rw [hv]
  · intro st ds env msg st₁ h
    unfold runFullPipeline
    rw [h]

/-- Fixture hypothesis for the C5 witness. -/
def c5hyp : HypothesisRow := ⟨"h5", "d5", "T", "If X then Y", "generated"⟩

/-- Fixture store for the C5 witness. -/
def c5failStore : DBState := ⟨[], [c5hyp], [], [], [], []⟩

/-- Validation environments whose generative call always throws. -/
def c5failEnvs : Nat → SageEnv := fun _ => ⟨Except.error "quota exceeded", none, "v5"⟩

/-- C5 witness: the abort behaviour applied to a concrete one-unit batch. -/
theorem c5_amended_witness :
    runValidationGo c5failEnvs c5failStore 0 [c5hyp] =
      StageResult.thrown "quota exceeded" c5failStore :=
  c5_amended.2.1 c5failEnvs c5failStore 0 c5hyp [] "quota exceeded" rfl

/-! ## C6 — duplicate insertion into the store -/

/-- A discovery input with no explicit id: same provider, same external id,
same title on both insertions. -/
def c6input : DiscoveryInput :=
  ⟨none, "pubmed", some "12345", "Sample Title", none, none⟩

/-- C6: counterexample.  The claim states that inserting the same Item twice
(same provider plus external id, same title) yields exactly one stored row
and that the second insert returns the existing id.  It is false: the
`discoveries` table has no uniqueness constraint besides the primary key,
and `insertDiscovery` draws a fresh uuid when the input carries no id, so
two inserts of the identical input store two rows and the second insert
returns the second fresh id, not the existing one. -/
theorem c6_counterexample :
    (insertDiscovery emptyDB c6input "u1").1 = "u1" ∧
    (insertDiscovery (insertDiscovery emptyDB c6input "u1").2 c6input "u2").1
      = "u2" ∧
    (insertDiscovery (insertDiscovery emptyDB c6input "u1").2 c6input
        "u2").2.discoveries =
      [⟨"u1", "pubmed", some "12345", "Sample Title", none, none, false⟩,
       ⟨"u2", "pubmed", some "12345", "Sample Title", none, none, false⟩] := by
  decide

/-- C6 (amended): the store deduplicates on the primary key `id` only.
Inserting with an explicit id replaces: afterwards exactly the one new row
carries that id and the insert returns it.  Inserting without an id appends
a row under a fresh uuid and returns the fresh uuid — so the same content
inserted twice without ids yields two rows (see the counterexample);
title-based dedup happens only inside `deduplicateResults`, within one
search batch, before insertion. -/
theorem c6_amended :
    (∀ st d id fresh, d.id = some id →
       (insertDiscovery st d fresh).1 = id ∧
       ((insertDiscovery st d fresh).2.discoveries.filter
           fun r => r.id == id) =
         [⟨id, d.source, d.external_id, d.title, d.relevance_score,
           d.priority, false⟩]) ∧
    (∀ st d fresh, d.id = none →
       (insertDiscovery st d fresh).1 = fresh ∧
       (insertDiscovery st d fresh).2.discoveries =
         (st.discoveries.filter fun r => r.id != fresh) ++
           [⟨fresh, d.source, d.external_id, d.title, d.relevance_score,
             d.priority, false⟩]) := by
  constructor
  · intro st d id fresh h
    unfold insertDiscovery
    rw [h]
    simp only [Option.getD_some]
    refine ⟨by simp, ?_⟩
    rw [List.filter_append]
    have h₁ : ((st.discoveries.filter fun r => r.id != id).filter
        fun r => r.id == id) = [] := by
      rw [List.filter_filter]
      apply List.filter_eq_nil_iff.mpr
      intro a _
      simp [bne]
    rw [h₁]
    simp
  · intro st d fresh h
    unfold insertDiscovery
    rw [h]
    exact ⟨rfl, rfl⟩

/-- A discovery input carrying an explicit id, for the C6 witness. -/
def c6fixedInput : DiscoveryInput :=
  ⟨some "k1", "pubmed", some "99", "T", none, none⟩

/-- C6 witness: the replace-by-id behaviour applied to a concrete input. -/
theorem c6_amended_witness :
    (insertDiscovery emptyDB c6fixedInput "unused").1 = "k1" ∧
    ((insertDiscovery emptyDB c6fixedInput "unused").2.discoveries.filter
        fun r => r.id == "k1") =
      [⟨"k1", "pubmed", some "99", "T", none, none, false⟩] :=
  c6_amended.1 emptyDB c6fixedInput "k1" "unused" rfl

/-! ## C7 — bucket and total persisted by the scoring stage -/

/-- Fixture discovery row for the scoring counterexample. -/
def c7row : DiscoveryRow := ⟨"d7", "pubmed", some "7", "T7", none, none, false⟩

/-- Fixture store for the scoring counterexample. -/
def c7store : DBState := ⟨[c7row], [], [], [], [], []⟩

/-- Triage environment whose parsed response reports `total = 39` with
`priority = high` — a pair the documented thresholds forbid. -/
def c7env : TriageEnv := ⟨Except.ok "resp", some [⟨"d7", 39, "high"⟩]⟩

/-- C7: counterexample.  The claim states that the persisted bucket is a
function of the persisted total under the thresholds (39 must give `low`).
It is false: `scoreDiscoveries` persists the `total` and `priority` of the
model response verbatim and never evaluates the thresholds, so a response
pairing total 39 with priority `high` is stored exactly so, though the
documented classification of 39 is `low`. -/
theorem c7_counterexample :
    ((scoreDiscoveries c7store [c7row] c7env).state.discoveries.map
        fun d => (d.relevance_score, d.priority)) =
      [(some 39, some "high")] ∧
    bucketOf 39 = "low" := by
  decide

/-- C7 (amended): the thresholds live only in the prompt text; transcribed
as `bucketOf`, they classify 39, 40, 69, 70, 100 as low, medium, medium,
high, high — and what `scoreDiscoveries` persists is the `(total, priority)`
pair of the model response verbatim, so the stored bucket matches the
thresholds exactly when the model response already does. -/
theorem c7_amended :
    bucketOf 39 = "low" ∧ bucketOf 40 = "medium" ∧ bucketOf 69 = "medium" ∧
    bucketOf 70 = "high" ∧ bucketOf 100 = "high" ∧
    (∀ st batch env resp s,
       env.chatOutcome = Except.ok resp → env.parsed = some [s] →
       (∃ d ∈ batch, d.id = s.discovery_id) →
       (scoreDiscoveries st batch env).state.discoveries =
         st.discoveries.map fun r =>
           if r.id = s.discovery_id then
             { r with relevance_score := some s.total,
                      priority := some s.priority }
           else r) := by
  refine ⟨by decide, by decide, by decide, by decide, by decide, ?_⟩
  intro st batch env resp s hc hp hmem
  obtain ⟨c, pr⟩ := env
  simp only at hc hp
  subst hc
  subst hp
  have hfind : (batch.find? fun r => r.id == s.discovery_id).isSome := by
    obtain ⟨d, hd, hid⟩ := hmem
    have hpd : (d.id == s.discovery_id) = true := beq_iff_eq.mpr hid
    exact List.find?_isSome.mpr ⟨d, hd, hpd⟩
  simp only [scoreDiscoveries, agentChat, List.foldl, applyScore,
    StageResult.state, logActivity]
  rw [if_pos hfind]

/-- Fixture discovery row for the C7 witness. -/
def c7wrow : DiscoveryRow := ⟨"d8", "pubmed", some "8", "T8", none, none, false⟩

/-- Fixture store for the C7 witness. -/
def c7wstore : DBState := ⟨[c7wrow], [], [], [], [], []⟩

/-- Triage environment whose parsed response follows the thresholds. -/
def c7wenv : TriageEnv := ⟨Except.ok "resp", some [⟨"d8", 85, "high"⟩]⟩

/-- C7 witness: the verbatim-persistence statement applied to a concrete
score. -/
theorem c7_amended_witness :
    (scoreDiscoveries c7wstore [c7wrow] c7wenv).state.discoveries =
      c7wstore.discoveries.map fun r =>
        if r.id = "d8" then
          { r with relevance_score := some (85 : Int),
                   priority := some "high" }
        else r :=
  c7_amended.2.2.2.2.2 c7wstore [c7wrow] c7wenv "resp" ⟨"d8", 85, "high"⟩
    rfl rfl ⟨c7wrow, by decide, rfl⟩

/-! ## C8 — descriptor validation in the generation stage -/

/-- The hypothesis rows produced by persisting a descriptor list verbatim,
one row per descriptor in order.  (`Option.getD ""` only normalises the
types: the verbatim-persistence theorem is applied to descriptors whose
fields are present.) -/
def hypRowsOf (discoveryId : String) (fresh : Nat → String) :
    Nat → List HypDescriptor → List HypothesisRow
  | _, [] => []
  | i, d :: rest =>
      ⟨fresh i, discoveryId, d.title.getD "", d.statement.getD "",
        "generated"⟩ :: hypRowsOf discoveryId fresh (i + 1) rest

/-- Fixture discovery row for the generation counterexample. -/
def c8disc : DiscoveryRow := ⟨"d9", "pubmed", some "9", "T9", none, none, false⟩

/-- Fixture store for the generation counterexample. -/
def c8store : DBState := ⟨[c8disc], [], [], [], [], []⟩

/-- Generation environment whose parsed response holds a descriptor with an
empty `title`. -/
def c8env : OracleEnv :=
  ⟨Except.ok "resp", some [⟨some "", some "If X then Y"⟩], fun _ => "h9"⟩

/-- C8: counterexample.  The claim states that a descriptor with a missing
or empty title or statement is dropped with a warning and that no persisted
artifact ever has an empty title or statement.  It is false:
`generateHypotheses` performs no field validation, so a descriptor whose
`title` is the empty string is persisted as a hypothesis row with an empty
title, and the call succeeds. -/
theorem c8_counterexample :
    ((generateHypotheses c8store c8disc c8env).state.hypotheses.map
        fun h => (h.title, h.statement, h.status)) =
      [("", "If X then Y", "generated")] ∧
    (generateHypotheses c8store c8disc c8env).isOk = true := by
  decide

/-- Verbatim persistence: when every descriptor has both fields present the
insertion loop appends one row per descriptor, exactly as given, dropping
nothing. -/
theorem insertHypothesesLoop_ok (discoveryId : String) (fresh : Nat → String) :
    ∀ descriptors : List HypDescriptor,
      (∀ x ∈ descriptors, x.title ≠ none ∧ x.statement ≠ none) →
      ∀ st i, insertHypothesesLoop discoveryId fresh st i descriptors =
        StageResult.ok (hypRowsOf discoveryId fresh i descriptors)
          { st with hypotheses :=
              st.hypotheses ++ hypRowsOf discoveryId fresh i descriptors } := by
  intro descriptors
  induction descriptors with
  | nil =>
      intro _ st i
      simp [insertHypothesesLoop, hypRowsOf]
  | cons d rest ih =>
      intro hall st i
      obtain ⟨ht, hs⟩ := hall d (List.mem_cons_self d rest)
      obtain ⟨t, ht'⟩ := Option.ne_none_iff_exists'.mp ht
      obtain ⟨s, hs'⟩ := Option.ne_none_iff_exists'.mp hs
      have hrest : ∀ x ∈ rest, x.title ≠ none ∧ x.statement ≠ none :=
        fun x hx => hall x (List.mem_cons_of_mem d hx)
      simp only [insertHypothesesLoop, insertHypothesis, ht', hs',
        hypRowsOf, Option.getD_some]
      rw [ih hrest]
      simp [List.append_assoc]

/-- C8 (amended): the generation stage performs no descriptor validation.
When every descriptor of the parsed response has `title` and `statement`
present, all of them are persisted verbatim — empty strings included, see
the counterexample — and none is dropped; when a descriptor is missing
either field, its insert throws a NOT NULL failure that aborts generation
for the item, with the earlier descriptors of the same response already
persisted. -/
theorem c8_amended :
    (∀ discoveryId fresh st i descriptors,
       (∀ x ∈ descriptors, x.title ≠ none ∧ x.statement ≠ none) →
       insertHypothesesLoop discoveryId fresh st i descriptors =
         StageResult.ok (hypRowsOf discoveryId fresh i descriptors)
           { st with hypotheses :=
               st.hypotheses ++ hypRowsOf discoveryId fresh i descriptors }) ∧
    (∀ discoveryId fresh st i (d : HypDescriptor) rest,
       d.title = none ∨ d.statement = none →
       insertHypothesesLoop discoveryId fresh st i (d :: rest) =
         StageResult.thrown "NOT NULL constraint failed: hypotheses" st) := by
  constructor
  · intro discoveryId fresh st i descriptors hall
    exact insertHypothesesLoop_ok discoveryId fresh descriptors hall st i
  · intro discoveryId fresh st i d rest h
    obtain ⟨dt, ds⟩ := d
    rcases h with h | h <;> simp only at h <;> subst h
    · rfl
    · cases dt <;> rfl

/-- C8 witness: verbatim persistence applied to a concrete descriptor with
an empty title. -/
theorem c8_amended_witness :
    insertHypothesesLoop "d10" (fun _ => "h10") emptyDB 0
        [⟨some "", some "S"⟩] =
      StageResult.ok
        (hypRowsOf "d10" (fun _ => "h10") 0 [⟨some "", some "S"⟩])
        { emptyDB with hypotheses :=
            emptyDB.hypotheses ++
              hypRowsOf "d10" (fun _ => "h10") 0 [⟨some "", some "S"⟩] } :=
  c8_amended.1 "d10" (fun _ => "h10") emptyDB 0 [⟨some "", some "S"⟩]
    (by decide)

/-! ## C9 — which items the generation stage receives -/

/-- Fixture discovery row for the fan-out counterexample: a medium-bucket
item present in the store. -/
def c9disc : DiscoveryRow := ⟨"m1", "pubmed", some "5", "M title", none, none, false⟩

/-- Fixture store for the fan-out counterexample. -/
def c9store : DBState := ⟨[c9disc], [], [], [], [], []⟩

/-- The medium-bucket score of the fixture item: the highest score of its
run. -/
def c9score : ScoreEntry := ⟨"m1", 80, "medium"⟩

/-- Generation environments that would succeed and yield one hypothesis. -/
def c9envs : Nat → OracleEnv :=
  fun _ => ⟨Except.ok "resp", some [⟨some "H", some "S"⟩], fun _ => "h11"⟩

/-- C9: counterexample.  The claim states that within a full pipeline run
generation is invoked for the items of the high AND medium buckets up to a
configured top-K cap.  It is false: `runHypothesisStage` reads only the
high bucket, so a run whose only scored item is medium-bucket (and within
any cap, being the single top item) invokes no generation at all — the
stage returns an empty list and the store is untouched, the item not even
marked processed — although the generation environment would have yielded a
hypothesis. -/
theorem c9_counterexample :
    runHypothesisStage c9store ⟨[], [c9score], []⟩ c9envs =
      StageResult.ok [] c9store := by
  decide

/-- Store evolution of one generation pass over the high bucket when every
generative call succeeds with an unparseable response: for each entry whose
discovery exists, one oracle `chat` activity row is logged and the
discovery is marked processed; entries without a stored discovery are
skipped. -/
def genPassState (st : DBState) : List ScoreEntry → DBState
  | [] => st
  | s :: rest =>
      match getDiscovery st s.discovery_id with
      | none => genPassState st rest
      | some _ =>
          genPassState
            (markDiscoveryProcessed
              (logActivity st "oracle" "chat" none none) s.discovery_id) rest

/-- Looking a discovery up after `markDiscoveryProcessed` finds the same
row, with `processed` set when the marked id matches. -/
theorem getDiscovery_mark (st : DBState) (id₂ id : String) :
    getDiscovery (markDiscoveryProcessed st id₂) id =
      (getDiscovery st id).map
        (fun r => if r.id = id₂ then { r with processed := true } else r) := by
  unfold getDiscovery markDiscoveryProcessed
  rw [List.find?_map]
  have hp : ((fun r : DiscoveryRow => r.id == id) ∘
      (fun r => if r.id = id₂ then { r with processed := true } else r)) =
      fun r : DiscoveryRow => r.id == id := by
    funext r
    by_cases h : r.id = id₂ <;> simp [h, Function.comp]
  rw [hp]

/-- A discovery already marked processed stays marked through the rest of a
generation pass. -/
theorem genPass_keeps_processed (id : String) :
    ∀ (l : List ScoreEntry) (st : DBState),
      ((getDiscovery st id).map DiscoveryRow.processed) = some true →
      ((getDiscovery (genPassState st l) id).map DiscoveryRow.processed) =
        some true := by
  intro l
  induction l with
  | nil => intro st h; exact h
  | cons s rest ih =>
      intro st h
      unfold genPassState
      cases hd : getDiscovery st s.discovery_id with
      | none => exact ih st h
      | some row =>
          apply ih
          rw [getDiscovery_mark]
          obtain ⟨r, hr, hpr⟩ :
              ∃ r, getDiscovery st id = some r ∧ r.processed = true := by
            cases hg : getDiscovery st id with
            | none => rw [hg] at h; simp at h
            | some r =>
                rw [hg] at h
                simp at h
                exact ⟨r, rfl, h⟩
          have hlog : getDiscovery (logActivity st "oracle" "chat" none none)
              id = getDiscovery st id := rfl
          rw [hlog, hr]
          by_cases hc : r.id = s.discovery_id <;> simp [hc, hpr]

/-- Every high-bucket entry whose discovery exists ends a generation pass
marked processed. -/
theorem genPass_processed (s : ScoreEntry) :
    ∀ (high : List ScoreEntry) (st : DBState), s ∈ high →
      (getDiscovery st s.discovery_id).isSome = true →
      ((getDiscovery (genPassState st high) s.discovery_id).map
          DiscoveryRow.processed) = some true := by
  intro high
  induction high with
  | nil => intro st hmem _; exact absurd hmem (List.not_mem_nil s)
  | cons s₀ rest ih =>
      intro st hmem hsome
      unfold genPassState
      cases hd : getDiscovery st s₀.discovery_id with
      | none =>
          rcases List.mem_cons.mp hmem with he | he
          · subst he
            rw [hd] at hsome
            simp at hsome
          · exact ih st he hsome
      | some row =>
          rcases List.mem_cons.mp hmem with he | he
          · subst he
            apply genPass_keeps_processed
            rw [getDiscovery_mark]
            have hlog : getDiscovery
                (logActivity st "oracle" "chat" none none) s.discovery_id =
                getDiscovery st s.discovery_id := rfl
            rw [hlog, hd]
            have hd₁ : st.discoveries.find?
                (fun r => r.id == s.discovery_id) = some row := hd
            have hfs := List.find?_some hd₁
            have hrow : row.id = s.discovery_id := by
              simpa using hfs
            simp [hrow]
          · apply ih _ he
            rw [getDiscovery_mark]
            have hlog : getDiscovery
                (logActivity st "oracle" "chat" none none) s.discovery_id =
                getDiscovery st s.discovery_id := rfl
            rw [hlog]
            cases hg : getDiscovery st s.discovery_id with
            | none => rw [hg] at hsome; simp at hsome
            | some r => simp

/-- C9 (amended): within a full pipeline run, `runHypothesisStage` reads
only the high bucket — its result does not depend on the medium or low
buckets at all, so no medium- or low-bucket item is ever sent to generation
— and it applies no cap: when every generative call returns (here with an
unparseable response, so no hypothesis rows obscure the pass), the stage
visits every high entry, and every high entry whose discovery exists is
marked processed.  No configuration value is involved. -/
theorem c9_amended :
    (∀ st high m l m₁ l₁ envs,
       runHypothesisStage st ⟨high, m, l⟩ envs =
         runHypothesisStage st ⟨high, m₁, l₁⟩ envs) ∧
    (∀ envs : Nat → OracleEnv,
       (∀ i, (envs i).parsed = none ∧
          ∃ r, (envs i).chatOutcome = Except.ok r) →
       ∀ high st i, runHypothesisGo envs st i high =
          StageResult.ok [] (genPassState st high)) ∧
    (∀ st high (s : ScoreEntry), s ∈ high →
       (getDiscovery st s.discovery_id).isSome = true →
       ((getDiscovery (genPassState st high) s.discovery_id).map
           DiscoveryRow.processed) = some true) := by
  refine ⟨?_, ?_, ?_⟩
  · intro st high m l m₁ l₁ envs
    rfl
  · intro envs h high
    induction high with
    | nil => intro st i; rfl
    | cons s rest ih =>
        intro st i
        obtain ⟨hp, r, hc⟩ := h i
        have hgen : ∀ row, generateHypotheses st row (envs i) =
            StageResult.ok []
              (logActivity st "oracle" "chat" none none) := by
          intro row
          unfold generateHypotheses agentChat
          rw [hc, hp]
        unfold runHypothesisGo genPassState
        cases hd : getDiscovery st s.discovery_id with
        | none => exact ih st (i + 1)
        | some row =>
            simp only [hgen row, ih _ (i + 1), List.nil_append]
  · intro st high s hmem hsome
    exact genPass_processed s high st hmem hsome

/-- Fixture discovery row for the C9 witness. -/
def c9wdisc : DiscoveryRow := ⟨"hd1", "pubmed", some "6", "H title", none, none, false⟩

/-- Fixture store for the C9 witness. -/
def c9wstore : DBState := ⟨[c9wdisc], [], [], [], [], []⟩

/-- Generation environments that always return an unparseable response. -/
def c9wenvs : Nat → OracleEnv :=
  fun _ => ⟨Except.ok "resp", none, fun _ => "x"⟩

/-- C9 witness: the no-cap coverage applied to a concrete one-entry high
bucket. -/
theorem c9_amended_witness :
    runHypothesisGo c9wenvs c9wstore 0 [⟨"hd1", 90, "high"⟩] =
      StageResult.ok []
        (genPassState c9wstore [⟨"hd1", 90, "high"⟩]) :=
  c9_amended.2.1 c9wenvs (fun _ => ⟨rfl, "resp", rfl⟩)
    [⟨"hd1", 90, "high"⟩] c9wstore 0

/-! ## C10 — de-duplication keeps the first occurrence -/

/-- Looking a key up after `seen.set` yields the new value for that key and
is unchanged for every other key. -/
theorem lookupSeen_setSeen (seen : List (String × SearchResult))
    (k : String) (v : SearchResult) (k₁ : String) :
    lookupSeen (setSeen seen k v) k₁ =
      if k₁ = k then some v else lookupSeen seen k₁ := by
  induction seen with
  | nil =>
      by_cases h : k₁ = k
      · simp [setSeen, lookupSeen, h]
      · simp [setSeen, lookupSeen, h, Ne.symm h]
  | cons hd rest ih =>
      obtain ⟨k₂, v₂⟩ := hd
      by_cases h₂ : k₂ = k
      · by_cases h₁ : k₁ = k
        · simp [setSeen, lookupSeen, h₂, h₁]
        · simp [setSeen, lookupSeen, h₂, h₁, Ne.symm h₁]
      · by_cases h₃ : k₂ = k₁
        · have h₄ : ¬ k₁ = k := fun hc => h₂ (h₃.trans hc)
          simp [setSeen, lookupSeen, h₂, h₃, h₄]
        · simp [setSeen, lookupSeen, h₂, h₃, ih]

/-- The output of the de-duplication filter depends on the `seen` map only
through its key set: it equals the keep-the-first-occurrence function run
with any key list holding the same keys. -/
theorem deduplicateAux_eq_keepFirstsAux :
    ∀ (l : List SearchResult) (seen : List (String × SearchResult))
      (keys : List String),
      (∀ k, (lookupSeen seen k).isSome = true ↔ k ∈ keys) →
      deduplicateAux seen l = keepFirstsAux keys l := by
  intro l
  induction l with
  | nil => intro seen keys _; rfl
  | cons item rest ih =>
      intro seen keys hinv
      unfold deduplicateAux keepFirstsAux
      cases hl : lookupSeen seen (normalizeTitle item.title) with
      | none =>
          have hk : normalizeTitle item.title ∉ keys := by
            intro hmem
            have := (hinv (normalizeTitle item.title)).mpr hmem
            rw [hl] at this
            simp at this
          rw [if_neg hk]
          have hinv₁ : ∀ k,
              (lookupSeen (setSeen seen (normalizeTitle item.title) item)
                k).isSome = true ↔
              k ∈ normalizeTitle item.title :: keys := by
            intro k
            rw [lookupSeen_setSeen]
            by_cases hk₁ : k = normalizeTitle item.title
            · simp [hk₁]
            · simp only [if_neg hk₁, List.mem_cons]
              rw [hinv k]
              constructor
              · intro hmem; exact Or.inr hmem
              · intro hmem
                rcases hmem with hmem | hmem
                · exact absurd hmem hk₁
                · exact hmem
          rw [ih _ _ hinv₁]
      | some existing =>
          have hk : normalizeTitle item.title ∈ keys := by
            apply (hinv (normalizeTitle item.title)).mp
            rw [hl]
            rfl
          rw [if_pos hk]
          dsimp only
          cases hm : moreData item existing with
          | false =>
              rw [if_neg (by simp)]
              exact ih seen keys hinv
          | true =>
              rw [if_pos rfl]
              apply ih
              intro k
              rw [lookupSeen_setSeen]
              by_cases hk₁ : k = normalizeTitle item.title
              · subst hk₁
                simp [hk]
              · rw [if_neg hk₁]
                exact hinv k

/-- The keep-the-first function emits pairwise-distinct normalised titles,
none of which is among the already-seen keys. -/
theorem keepFirstsAux_nodup :
    ∀ (l : List SearchResult) (keys : List String),
      ((keepFirstsAux keys l).map fun r => normalizeTitle r.title).Nodup ∧
      ∀ y ∈ keepFirstsAux keys l, normalizeTitle y.title ∉ keys := by
  intro l
  induction l with
  | nil => intro keys; exact ⟨List.nodup_nil, by intro y hy; cases hy⟩
  | cons item rest ih =>
      intro keys
      unfold keepFirstsAux
      by_cases h : normalizeTitle item.title ∈ keys
      · rw [if_pos h]
        exact ih keys
      · rw [if_neg h]
        obtain ⟨ihn, ihk⟩ := ih (normalizeTitle item.title :: keys)
        refine ⟨?_, ?_⟩
        · rw [List.map_cons]
          apply List.Nodup.cons
          · intro hmem
            obtain ⟨y, hy, hyt⟩ := List.mem_map.mp hmem
            exact absurd (hyt ▸ List.mem_cons_self _ _)
              (fun hc => (ihk y hy) hc)
          · exact ihn
        · intro y hy
          rcases List.mem_cons.mp hy with hy₁ | hy₁
          · subst hy₁
            exact h
          · intro hc
            exact (ihk y hy₁) (List.mem_cons_of_mem _ hc)

/-- The keep-the-first function returns a sublist of its input: output
order is first-occurrence input order and every output item is an input
item. -/
theorem keepFirstsAux_sublist :
    ∀ (l : List SearchResult) (keys : List String),
      List.Sublist (keepFirstsAux keys l) l := by
  intro l
  induction l with
  | nil => intro keys; exact List.Sublist.refl []
  | cons item rest ih =>
      intro keys
      unfold keepFirstsAux
      by_cases h : normalizeTitle item.title ∈ keys
      · rw [if_pos h]
        exact List.Sublist.cons item (ih keys)
      · rw [if_neg h]
        exact List.Sublist.cons₂ item (ih _)

/-- Every input whose normalised title is not among the seen keys is
represented in the output of the keep-the-first function. -/
theorem keepFirstsAux_complete :
    ∀ (l : List SearchResult) (keys : List String) (x : SearchResult),
      x ∈ l → normalizeTitle x.title ∉ keys →
      ∃ y ∈ keepFirstsAux keys l,
        normalizeTitle y.title = normalizeTitle x.title := by
  intro l
  induction l with
  | nil => intro keys x hx; cases hx
  | cons item rest ih =>
      intro keys x hx hk
      unfold keepFirstsAux
      by_cases h : normalizeTitle item.title ∈ keys
      · rw [if_pos h]
        rcases List.mem_cons.mp hx with hx₁ | hx₁
        · subst hx₁
          exact absurd h hk
        · exact ih keys x hx₁ hk
      · rw [if_neg h]
        by_cases ht : normalizeTitle x.title = normalizeTitle item.title
        · exact ⟨item, List.mem_cons_self _ _, ht.symm⟩
        · rcases List.mem_cons.mp hx with hx₁ | hx₁
          · subst hx₁
            exact absurd rfl ht
          · obtain ⟨y, hy, hyt⟩ := ih (normalizeTitle item.title :: keys) x hx₁
              (by
                intro hc
                rcases List.mem_cons.mp hc with hc₁ | hc₁
                · exact ht hc₁
                · exact hk hc₁)
            exact ⟨y, List.mem_cons_of_mem _ hy, hyt⟩

/-- C10: `deduplicateResults` keeps exactly the first occurrence of each
normalised title: it equals the keep-the-first-occurrence function, its
output carries pairwise-distinct normalised titles in first-occurrence
input order (a sublist of the input), and every input title is represented
— so a later duplicate is never emitted in place of the first occurrence,
its longer abstract or higher citation count notwithstanding (the
`moreData` map update affects no kept element). -/
theorem c10_dedup_keeps_first (l : List SearchResult) :
    deduplicateResults l = keepFirsts l ∧
    ((deduplicateResults l).map fun r => normalizeTitle r.title).Nodup ∧
    List.Sublist (deduplicateResults l) l ∧
    ∀ x ∈ l, ∃ y ∈ deduplicateResults l,
      normalizeTitle y.title = normalizeTitle x.title := by
  have he : deduplicateResults l = keepFirsts l := by
    apply deduplicateAux_eq_keepFirstsAux
    intro k
    simp [lookupSeen]
  refine ⟨he, ?_, ?_, ?_⟩
  · rw [he]
    exact (keepFirstsAux_nodup l []).1
  · rw [he]
    exact keepFirstsAux_sublist l []
  · intro x hx
    rw [he]
    exact keepFirstsAux_complete l [] x hx (by intro hc; cases hc)

/-- A result and a later duplicate of it with a longer abstract and a
higher citation count. -/
def c10first : SearchResult := ⟨"Deep Learning!", some "abc", some 3⟩

/-- The later duplicate: same normalised title, more data. -/
def c10second : SearchResult := ⟨"deep learning", some "abcdef", some 10⟩

/-- C10 witness: the theorem applied to the two-element list; the output is
exactly the first occurrence, although the duplicate has the longer
abstract and the higher citation count. -/
theorem c10_witness :
    deduplicateResults [c10first, c10second] = [c10first] ∧
    ∃ y ∈ deduplicateResults [c10first, c10second],
      normalizeTitle y.title = normalizeTitle c10second.title :=
  ⟨by decide,
   (c10_dedup_keeps_first [c10first, c10second]).2.2.2 c10second (by decide)⟩

end ResearchAgents
